import Mathlib

/-!
Shallow embedding of the conversation-generation core of the
obsidian-delver-plugin repository (TypeScript), covering:

* `src/context/token-estimation.ts` — `TokenEstimator`
* `src/context/manager.ts` — `ContextManager.getActiveMessages` and its
  mode reductions (`applyRollingWindow`, `applyCompaction`, `applyHalting`),
  `createCompactionSummary`, `formatUserMessageWithMetadata`
* `src/tools/permissions.ts` — `PermissionManager`
* `src/tools/list-references.ts` (its third concatenated file, the tool
  registry) — `ToolRegistry.register` / `getTool`
* `src/generation/generate.ts` — the cancellable streaming bridge `generate`
* `src/generation/chat-loop.ts` — `ChatLoop.run` / `handleToolCalls`

Modelling conventions: JS numbers that are always integers become `Nat`;
`Math.ceil(c / 4)` becomes `(c + 3) / 4`; the float comparison
`recentTokens >= maxTokens * 0.8` becomes the exact comparison
`10 * recentTokens ≥ 8 * maxTokens`; JS string-falsy `a || b` becomes
`jsOrString`; the mutable token cache becomes an explicitly threaded
association list; thrown exceptions become `Except.error`; `Date.now()`
and generated message ids become explicit parameters (`now`, id supplies);
the host JS `Date` local-time calendar is modelled at UTC offset 0;
`JSON.stringify` is modelled over a `JsonValue` type (with only quote and
backslash escaping, which is all the development depends on).  External
oracles (the provider stream, the permission callback, tool execution)
are parameters of the embedding, as the spec treats them as collaborators.
-/

namespace Delver

/-- A JSON-ish value, modelling the TypeScript `Record<string, any>`
used for tool-call arguments. -/
inductive JsonValue where
  | null : JsonValue
  | bool (b : Bool) : JsonValue
  | num (n : Int) : JsonValue
  | str (s : String) : JsonValue
  | arr (elems : List JsonValue) : JsonValue
  | obj (fields : List (String × JsonValue)) : JsonValue

/-- Escape a character for a JSON string literal (quote and backslash only;
other escapes are irrelevant to the properties proved here). -/
def jsonEscapeChar (c : Char) : String :=
  if c = '\\' then "\\\\"
  else if c = '"' then "\\\""
  else String.singleton c

/-- Escape a string for inclusion in a JSON string literal. -/
def jsonEscape (s : String) : String :=
  String.join (s.toList.map jsonEscapeChar)

mutual

/-- Model of `JSON.stringify` on a single value. -/
def JsonValue.stringify : JsonValue → String
  | JsonValue.null => "null"
  | JsonValue.bool b => if b then "true" else "false"
  | JsonValue.num n => toString n
  | JsonValue.str s => "\"" ++ jsonEscape s ++ "\""
  | JsonValue.arr elems => "[" ++ JsonValue.stringifyArray elems ++ "]"
  | JsonValue.obj fields => "\x7b" ++ JsonValue.stringifyFields fields ++ "\x7d"

/-- Comma-separated serialization of array elements. -/
def JsonValue.stringifyArray : List JsonValue → String
  | [] => ""
  | [x] => JsonValue.stringify x
  | x :: y :: rest =>
      JsonValue.stringify x ++ "," ++ JsonValue.stringifyArray (y :: rest)

/-- Comma-separated serialization of object fields. -/
def JsonValue.stringifyFields : List (String × JsonValue) → String
  | [] => ""
  | [(k, v)] => "\"" ++ jsonEscape k ++ "\":" ++ JsonValue.stringify v
  | (k, v) :: f :: rest =>
      "\"" ++ jsonEscape k ++ "\":" ++ JsonValue.stringify v ++ "," ++
        JsonValue.stringifyFields (f :: rest)

end

/-- Message roles (`src/types/messages.ts`). -/
inductive Role where
  | system
  | user
  | assistant
  | tool
deriving DecidableEq, Repr

/-- Values of `ToolCall.permissionStatus` (`src/types/messages.ts`). -/
inductive PermissionStatus where
  | pending
  | approved
  | denied
deriving DecidableEq, Repr

/-- The `function` field of a `ToolCall` (`src/types/messages.ts`). -/
structure ToolCallFunction where
  name : String
  arguments : List (String × JsonValue)

/-- A tool call (`src/types/messages.ts`); `result` and `error` are the
optional in-place-updated fields. -/
structure ToolCall where
  function : ToolCallFunction
  permissionStatus : Option PermissionStatus := none
  result : Option String := none
  error : Option String := none

/-- A chat message (`DelverMessage` in `src/types/messages.ts`).
`timestamp` is milliseconds since the Unix epoch. -/
structure DelverMessage where
  id : String
  role : Role
  content : String
  thinking : Option String := none
  tool_calls : Option (List ToolCall) := none
  tool_name : Option String := none
  timestamp : Nat
  isStreaming : Option Bool := none

/-- Context modes (`src/types/messages.ts`). -/
inductive ContextMode where
  | rolling
  | compaction
  | halting
deriving DecidableEq, Repr

/-- A chat session (`ChatSession` in `src/types/messages.ts`).
`contextLimit = some 0` models the explicit `0` override (falsy in JS). -/
structure ChatSession where
  id : String
  name : String
  messages : List DelverMessage
  contextMode : ContextMode
  contextLimit : Option Nat := none
  model : String
  createdAt : Nat
  updatedAt : Nat

/-- JS `a || b` on an optional string: `b` when `a` is absent or empty. -/
def jsOrString (a : Option String) (b : String) : String :=
  match a with
  | some s => if s = "" then b else s
  | none => b

/-! ## TokenEstimator (`src/context/token-estimation.ts`) -/

/-- The estimator's private `tokenCache : Map<string, number>`, threaded
explicitly. Insertion prepends; lookup takes the first match, so a later
insertion of the same key would shadow (a `Map` overwrites; the two agree
because the code never inserts a key that is already present). -/
abbrev TokenCache := List (String × Nat)

/-- The constant `CHARS_PER_TOKEN = 4`. -/
def CHARS_PER_TOKEN : Nat := 4

/-- The function `getCacheKey`: the template literal `` `${message.id}-${message.timestamp}` ``. -/
def getCacheKey (message : DelverMessage) : String :=
  message.id ++ "-" ++ toString message.timestamp

/-- Serialization of a `permissionStatus` value inside `JSON.stringify`. -/
def PermissionStatus.jsonName : PermissionStatus → String
  | PermissionStatus.pending => "pending"
  | PermissionStatus.approved => "approved"
  | PermissionStatus.denied => "denied"

/-- The `JSON.stringify` view of one `ToolCall`: defined fields only, in
declaration order. -/
def ToolCall.toJson (tc : ToolCall) : JsonValue :=
  JsonValue.obj
    ([("function", JsonValue.obj
        [("name", JsonValue.str tc.function.name),
         ("arguments", JsonValue.obj tc.function.arguments)])] ++
     (match tc.permissionStatus with
      | some p => [("permissionStatus", JsonValue.str p.jsonName)]
      | none => []) ++
     (match tc.result with
      | some r => [("result", JsonValue.str r)]
      | none => []) ++
     (match tc.error with
      | some e => [("error", JsonValue.str e)]
      | none => []))

/-- Model of `JSON.stringify(message.tool_calls)`. -/
def jsonStringifyToolCalls (tcs : List ToolCall) : String :=
  JsonValue.stringify (JsonValue.arr (tcs.map ToolCall.toJson))

/-- The `charCount` accumulated by `estimateMessage`: content length, plus
thinking length if present, plus serialized tool_calls length if present
(JS truthiness on the optional fields; `some ""` for thinking contributes 0
either way, and `tool_calls` present-but-empty still counts `"[]"`). -/
def estimateChars (message : DelverMessage) : Nat :=
  message.content.length +
    (match message.thinking with
     | some t => t.length
     | none => 0) +
    (match message.tool_calls with
     | some tcs => (jsonStringifyToolCalls tcs).length
     | none => 0)

/-- The uncached token count: `Math.ceil(charCount / CHARS_PER_TOKEN)`. -/
def estimatePure (message : DelverMessage) : Nat :=
  (estimateChars message + (CHARS_PER_TOKEN - 1)) / CHARS_PER_TOKEN

/-- The function `estimateMessage`: consult the cache under `getCacheKey`; on a miss,
compute and cache. Returns the count and the updated cache. -/
def estimateMessage (cache : TokenCache) (message : DelverMessage) :
    Nat × TokenCache :=
  let key := getCacheKey message
  match cache.lookup key with
  | some v => (v, cache)
  | none =>
      let tokenCount := estimatePure message
      (tokenCount, (key, tokenCount) :: cache)

/-- The function `estimateMessages`: `messages.reduce((total, msg) => total +
this.estimateMessage(msg), 0)`. The mutable cache consulted and grown by
each `estimateMessage` call is threaded through the traversal
left-to-right; the total is the sum of the per-message counts. -/
def estimateMessages (cache : TokenCache) :
    List DelverMessage → Nat × TokenCache
  | [] => (0, cache)
  | m :: ms =>
      let r := estimateMessage cache m
      let rest := estimateMessages r.2 ms
      (r.1 + rest.1, rest.2)

/-! ## ContextManager (`src/context/manager.ts`) -/

/-- Budget resolution `session.contextLimit || maxTokens` (JS: `0` and `undefined` are falsy). -/
def resolveBudget (contextLimit : Option Nat) (maxTokens : Nat) : Nat :=
  match contextLimit with
  | some n => if n = 0 then maxTokens else n
  | none => maxTokens

/-- JS `messages.slice(-n)` for `n > 0`: the last `min n length` elements. -/
def sliceLast (n : Nat) (messages : List DelverMessage) : List DelverMessage :=
  messages.drop (messages.length - n)

/-- The reduction `applyRollingWindow`: keep the last `windowSize = 20` messages
(`config.rollingWindowSize` is always set to 20 by `getActiveMessages`). -/
def applyRollingWindow (messages : List DelverMessage) : List DelverMessage :=
  sliceLast 20 messages

/-- The function `createCompactionSummary`: the synthetic system-role placeholder message;
`now` models `Date.now()`. -/
def createCompactionSummary (now : Nat) (messages : List DelverMessage) :
    DelverMessage :=
  let messageCount := messages.length
  let userMessages := (messages.filter (fun m => m.role == Role.user)).length
  let assistantMessages :=
    (messages.filter (fun m => m.role == Role.assistant)).length
  { id := "compaction-" ++ toString now,
    role := Role.system,
    content := "[Previous conversation summary: " ++ toString messageCount ++
      " messages (" ++ toString userMessages ++ " from user, " ++
      toString assistantMessages ++
      " from assistant) have been compacted to save context. The key points and topics discussed are preserved above this message.]",
    timestamp := now }

/-- The reduction `applyCompaction`. The float test `recentTokens >= config.maxTokens * 0.8`
is modelled exactly as `10 * recentTokens ≥ 8 * maxTokens`. -/
def applyCompaction (cache : TokenCache) (maxTokens now : Nat)
    (messages : List DelverMessage) : List DelverMessage × TokenCache :=
  let recentCount := 10
  if messages.length ≤ recentCount then
    (messages, cache)
  else
    let recent := sliceLast recentCount messages
    let older := messages.take (messages.length - recentCount)
    let r := estimateMessages cache recent
    if 10 * r.1 ≥ 8 * maxTokens then
      (applyRollingWindow messages, r.2)
    else
      (createCompactionSummary now older :: recent, r.2)

/-- The reduction `applyHalting`: estimate the whole conversation; throw when the count
exceeds `config.maxTokens`, else return the messages unchanged. -/
def applyHalting (cache : TokenCache) (maxTokens : Nat)
    (messages : List DelverMessage) :
    Except String (List DelverMessage) × TokenCache :=
  let r := estimateMessages cache messages
  if r.1 > maxTokens then
    (Except.error ("Context limit exceeded: " ++ toString r.1 ++ " tokens > " ++
      toString maxTokens ++
      " tokens. Try switching to \"rolling\" or \"compaction\" mode, or increase the context limit."),
     r.2)
  else
    (Except.ok messages, r.2)

/-- Model of `String(n).padStart(2, '0')` for a natural number. -/
def padZero2 (n : Nat) : String :=
  if n < 10 then "0" ++ toString n else toString n

/-- Gregorian civil date (year, 1-based month, day) from a count of days
since 1970-01-01, modelling the host `Date` accessors `getFullYear`,
`getMonth() + 1` and `getDate` (local timezone taken as UTC offset 0;
timestamps before the epoch are out of the model, as `timestamp : Nat`). -/
def civilFromDays (z : Nat) : Nat × Nat × Nat :=
  let z' := z + 719468
  let era := z' / 146097
  let doe := z' % 146097
  let yoe := (doe - doe / 1460 + doe / 36524 - doe / 146096) / 365
  let y := yoe + era * 400
  let doy := doe - (365 * yoe + yoe / 4 - yoe / 100)
  let mp := (5 * doy + 2) / 153
  let d := doy - (153 * mp + 2) / 5 + 1
  let m := if mp < 10 then mp + 3 else mp - 9
  (if m ≤ 2 then y + 1 else y, m, d)

/-- The `monthNames` array. -/
def monthNames : List String :=
  ["January", "February", "March", "April", "May", "June",
   "July", "August", "September", "October", "November", "December"]

/-- The `dayNames` array. -/
def dayNames : List String :=
  ["Sunday", "Monday", "Tuesday", "Wednesday", "Thursday", "Friday",
   "Saturday"]

/-- The metadata XML block prepended to user-message content, a pure
function of the message's millisecond timestamp. `getDay()` for a day
count `d` since the epoch is `(d + 4) % 7` (1970-01-01 was a Thursday). -/
def metadataBlock (timestamp : Nat) : String :=
  let days := timestamp / 86400000
  let msOfDay := timestamp % 86400000
  let hours := msOfDay / 3600000
  let minutes := msOfDay % 3600000 / 60000
  let seconds := msOfDay % 60000 / 1000
  let ymd := civilFromDays days
  let datetime := toString ymd.1 ++ "-" ++ padZero2 ymd.2.1 ++ "-" ++
    padZero2 ymd.2.2 ++ " " ++ padZero2 hours ++ ":" ++ padZero2 minutes ++
    ":" ++ padZero2 seconds
  let monthName := monthNames.getD (ymd.2.1 - 1) ""
  let dayName := dayNames.getD ((days + 4) % 7) ""
  "<metadata>\n  <datetime datetime=\"" ++ datetime ++ "\" month=\"" ++
    monthName ++ "\" day=\"" ++ dayName ++ "\" />\n</metadata>\n\n"

/-- The function `formatUserMessageWithMetadata`: returns a fresh message value
(`{...message, content: metadata + message.content}`); the stored message
is not touched. -/
def formatUserMessageWithMetadata (message : DelverMessage) : DelverMessage :=
  { message with content := metadataBlock message.timestamp ++ message.content }

/-- The map over active messages that metadata-formats user messages and
leaves every other role untouched. -/
def formatActive (messages : List DelverMessage) : List DelverMessage :=
  messages.map (fun msg =>
    if msg.role == Role.user then formatUserMessageWithMetadata msg else msg)

/-- The entry point `getActiveMessages(session, maxTokens)`; `now` models `Date.now()` and
`cache` the estimator state. The JS `throw` of halting mode becomes
`Except.error`; in the error case nothing after `applyHalting` runs. -/
def getActiveMessages (cache : TokenCache) (session : ChatSession)
    (maxTokens now : Nat) : Except String (List DelverMessage) × TokenCache :=
  let budget := resolveBudget session.contextLimit maxTokens
  let allMessages := session.messages
  let systemPrompt := allMessages.find? (fun m => m.role == Role.system)
  let conversationMessages :=
    allMessages.filter (fun m => !(m.role == Role.system))
  let reduced : Except String (List DelverMessage) × TokenCache :=
    match session.contextMode with
    | ContextMode.rolling =>
        (Except.ok (applyRollingWindow conversationMessages), cache)
    | ContextMode.compaction =>
        let r := applyCompaction cache budget now conversationMessages
        (Except.ok r.1, r.2)
    | ContextMode.halting =>
        applyHalting cache budget conversationMessages
  match reduced with
  | (Except.error e, cache') => (Except.error e, cache')
  | (Except.ok active, cache') =>
      let formatted := formatActive active
      let final :=
        match systemPrompt with
        | some s => s :: formatted
        | none => formatted
      (Except.ok final, cache')

/-! ## PermissionManager (`src/tools/permissions.ts`) -/

/-- The type `ToolPermission` (`src/types/tools.ts`). -/
inductive ToolPermission where
  | ask
  | allow
  | deny
  | disabled
deriving DecidableEq, Repr

/-- The permission manager's name-keyed policy record. -/
structure PermissionManager where
  permissions : List (String × ToolPermission)

/-- Lookup `getPermission`: `this.permissions[toolName] || 'ask'`. -/
def PermissionManager.getPermission (pm : PermissionManager)
    (toolName : String) : ToolPermission :=
  (pm.permissions.lookup toolName).getD ToolPermission.ask

/-- Predicate `requiresPrompt`. -/
def PermissionManager.requiresPrompt (pm : PermissionManager)
    (toolName : String) : Bool :=
  pm.getPermission toolName == ToolPermission.ask

/-- Predicate `isDenied`. -/
def PermissionManager.isDenied (pm : PermissionManager)
    (toolName : String) : Bool :=
  pm.getPermission toolName == ToolPermission.deny

/-- Predicate `isDisabled`. -/
def PermissionManager.isDisabled (pm : PermissionManager)
    (toolName : String) : Bool :=
  pm.getPermission toolName == ToolPermission.disabled

/-! ## ToolRegistry (third concatenated file of
`src/tools/list-references.ts`) -/

/-- A registered tool (`BaseTool` in `src/types/tools.ts`): its `name`
together with its `execute(args, ctx)` method. Concrete tools run against
the vault, an external collaborator, so `execute` is an oracle:
`Except.error e` models a thrown error whose `.message` is `e`. -/
structure BaseTool where
  name : String
  execute : List (String × JsonValue) → Except String String

/-- The registry's private `tools : Map<string, BaseTool>`, keyed by
`tool.name`, as an association list: `set` is modelled by prepending and
`get` by first-match lookup, so a re-registration shadows the old entry
exactly as `Map.set` overwrites it. -/
structure ToolRegistry where
  tools : List (String × BaseTool)

/-- The method `register`: `this.tools.set(tool.name, tool)`. -/
def ToolRegistry.register (reg : ToolRegistry) (tool : BaseTool) :
    ToolRegistry :=
  { tools := (tool.name, tool) :: reg.tools }

/-- The method `getTool`: `this.tools.get(name)`. -/
def ToolRegistry.getTool (reg : ToolRegistry) (name : String) :
    Option BaseTool :=
  reg.tools.lookup name

/-! ## ChatLoop tool execution (`src/generation/chat-loop.ts`) -/

/-- External collaborators of one turn's tool handling: the registry the
loop resolves tool names against (`this.toolRegistry`), and the suspending
`callbacks.onToolPermission` decision as an oracle. -/
structure ToolEnv where
  registry : ToolRegistry
  approve : ToolCall → Bool

/-- Result of processing one entry of `message.tool_calls`: the in-place
updated call, the tool-role message pushed for it (if any), and whether the
permission callback and `execute` were invoked. -/
structure ToolStepResult where
  call : ToolCall
  message : Option DelverMessage
  prompted : Bool
  executed : Bool

/-- Build the tool-role result message pushed after execution:
`content: toolCall.result || toolCall.error || 'No result'`. -/
def mkToolResultMessage (msgId : String) (now : Nat) (toolName : String)
    (call : ToolCall) : DelverMessage :=
  { id := msgId,
    role := Role.tool,
    content := jsOrString call.result (jsOrString call.error "No result"),
    tool_name := some toolName,
    timestamp := now }

/-- One iteration of the `for (const toolCall of message.tool_calls)` loop
in `handleToolCalls`, resolving the name with
`this.toolRegistry.getTool(toolName)`. The four early `continue` branches
(tool not found, disabled, denied, user-denied) update the call and skip
the push; only a call that reaches `tool.execute` gets a tool-role
message. `msgId` models the generated `` `msg-${Date.now()}-${random}` ``
id and `now` the timestamp. -/
def processToolCall (env : ToolEnv) (pm : PermissionManager) (msgId : String)
    (now : Nat) (toolCall : ToolCall) : ToolStepResult :=
  let toolName := toolCall.function.name
  match env.registry.getTool toolName with
  | none =>
      { call := { toolCall with
          permissionStatus := some PermissionStatus.denied,
          error := some ("Tool not found: " ++ toolName) },
        message := none, prompted := false, executed := false }
  | some tool =>
      if pm.isDisabled toolName then
        { call := { toolCall with
            permissionStatus := some PermissionStatus.denied,
            error := some ("Tool is disabled: " ++ toolName) },
          message := none, prompted := false, executed := false }
      else if pm.isDenied toolName then
        { call := { toolCall with
            permissionStatus := some PermissionStatus.denied,
            error := some ("Tool is denied: " ++ toolName) },
          message := none, prompted := false, executed := false }
      else if pm.requiresPrompt toolName then
        if env.approve toolCall then
          let approvedCall :=
            { toolCall with
                permissionStatus := some PermissionStatus.approved }
          let executedCall :=
            match tool.execute toolCall.function.arguments with
            | Except.ok r => { approvedCall with result := some r }
            | Except.error e =>
                { approvedCall with
                  error :=
                    some (if e = "" then "Tool execution failed" else e) }
          { call := executedCall,
            message :=
              some (mkToolResultMessage msgId now toolName executedCall),
            prompted := true, executed := true }
        else
          { call := { toolCall with
              permissionStatus := some PermissionStatus.denied,
              error := some "Permission denied by user" },
            message := none, prompted := true, executed := false }
      else
        let approvedCall :=
          { toolCall with permissionStatus := some PermissionStatus.approved }
        let executedCall :=
          match tool.execute toolCall.function.arguments with
          | Except.ok r => { approvedCall with result := some r }
          | Except.error e =>
              { approvedCall with
                error :=
                  some (if e = "" then "Tool execution failed" else e) }
        { call := executedCall,
          message :=
            some (mkToolResultMessage msgId now toolName executedCall),
          prompted := false, executed := true }

/-- The observable effect of one `handleToolCalls` loop: the updated calls,
the tool-role messages appended to `session.messages` in push order, and
the ordered traces of permission prompts and `execute` invocations. -/
structure ToolLoopResult where
  calls : List ToolCall
  appended : List DelverMessage
  prompts : List String
  execs : List String

/-- The `handleToolCalls` loop with an index-based id supply `mkId`. -/
def handleToolCallsAux (env : ToolEnv) (pm : PermissionManager)
    (mkId : Nat → String) (now : Nat) :
    Nat → List ToolCall → ToolLoopResult
  | _, [] => { calls := [], appended := [], prompts := [], execs := [] }
  | k, tc :: rest =>
      let step := processToolCall env pm (mkId k) now tc
      let tail := handleToolCallsAux env pm mkId now (k + 1) rest
      { calls := step.call :: tail.calls,
        appended := step.message.toList ++ tail.appended,
        prompts := (if step.prompted then [tc.function.name] else []) ++
          tail.prompts,
        execs := (if step.executed then [tc.function.name] else []) ++
          tail.execs }

/-- The loop `handleToolCalls` over a tool-call list (the loop body; the final
recursion into `run` is modelled by `runTurn` below). -/
def handleToolCalls (env : ToolEnv) (pm : PermissionManager)
    (mkId : Nat → String) (now : Nat) (toolCalls : List ToolCall) :
    ToolLoopResult :=
  handleToolCallsAux env pm mkId now 0 toolCalls

/-! ## generate (`src/generation/generate.ts`) -/

/-- Chunk types (`GenerationChunk.type` in `src/types/providers.ts`). -/
inductive ChunkType where
  | content
  | thinking
  | toolCall
  | done
  | error
deriving DecidableEq, Repr

/-- A generation chunk (`src/types/providers.ts`); token-count metadata is
omitted as nothing reads it. -/
structure GenerationChunk where
  type : ChunkType
  content : Option String := none
  thinking : Option String := none
  tool_calls : Option (List ToolCall) := none
  done : Option Bool := none
  error : Option String := none

/-- The distinguished chunk `{ type: 'error', error: 'Generation cancelled' }`
yielded by `generate` when the abort signal is observed. -/
def cancelChunk : GenerationChunk :=
  { type := ChunkType.error, error := some "Generation cancelled" }

/-- Whether a provider chunk makes `generate` stop pulling further chunks:
`chunk.done || chunk.type === 'error'`. -/
def stopsStream (chunk : GenerationChunk) : Bool :=
  chunk.done.getD false || chunk.type == ChunkType.error

/-- The `for await` loop body of `generate`: `chunks` are the chunks the
provider's stream would deliver in order; `signal i` is the state of
`signal.aborted` at the check made right after the chunk of index `i` is
pulled. On an observed abort the loop yields `cancelChunk` and returns
(dropping the pulled chunk); otherwise it yields the chunk and stops after
a done-flagged or error chunk. -/
def generateChunks (signal : Nat → Bool) :
    Nat → List GenerationChunk → List GenerationChunk
  | _, [] => []
  | i, chunk :: rest =>
      if signal i then
        [cancelChunk]
      else
        chunk :: (if stopsStream chunk then []
          else generateChunks signal (i + 1) rest)

/-! ## ChatLoop.run (`src/generation/chat-loop.ts`) -/

/-- How the chunk-consumption loop of `ChatLoop.run` ends. -/
inductive ConsumeOutcome where
  | finished
  | gotToolCalls
  | gotError (e : String)

/-- The chunk-consumption loop of `run`: accumulates the draft assistant
message and returns it, the ordered list of chunks forwarded to
`callbacks.onChunk`, and how the loop ended. An error chunk goes to
`onError`, not `onChunk`; a tool_call chunk freezes the draft and leaves
the loop; exhausting the stream falls through to the final push. -/
def consumeChunks (assistant : DelverMessage) :
    List GenerationChunk →
    DelverMessage × List GenerationChunk × ConsumeOutcome
  | [] => (assistant, [], ConsumeOutcome.finished)
  | chunk :: rest =>
      match chunk.type with
      | ChunkType.content =>
          let a := { assistant with
            content := assistant.content ++ chunk.content.getD "" }
          let r := consumeChunks a rest
          (r.1, chunk :: r.2.1, r.2.2)
      | ChunkType.thinking =>
          let a := { assistant with
            thinking := some ((assistant.thinking.getD "") ++
              chunk.thinking.getD "") }
          let r := consumeChunks a rest
          (r.1, chunk :: r.2.1, r.2.2)
      | ChunkType.toolCall =>
          ({ assistant with
              tool_calls := chunk.tool_calls,
              isStreaming := some false },
           [chunk], ConsumeOutcome.gotToolCalls)
      | ChunkType.done =>
          let a := { assistant with isStreaming := some false }
          let r := consumeChunks a rest
          (r.1, chunk :: r.2.1, r.2.2)
      | ChunkType.error =>
          ({ assistant with isStreaming := some false },
           [], ConsumeOutcome.gotError (jsOrString chunk.error "Unknown error"))

/-- How a whole turn (one top-level `run` call) ends in the model. -/
inductive TurnOutcome where
  | complete (message : DelverMessage)
  | errored (e : String)
  | stopped
  | outOfFuel

/-- Per-turn environment: the tool collaborators plus, per round, the
provider's chunk stream, the abort-signal history, the draft-message id,
and the tool-message id supply. `now` models `Date.now()`. -/
structure TurnEnv where
  tools : ToolEnv
  pm : PermissionManager
  streams : Nat → List GenerationChunk
  signal : Nat → Nat → Bool
  draftId : Nat → String
  toolMsgId : Nat → Nat → String
  now : Nat

/-- The fresh draft assistant message created at the top of `run`. -/
def mkDraft (env : TurnEnv) (round : Nat) : DelverMessage :=
  { id := env.draftId round,
    role := Role.assistant,
    content := "",
    timestamp := env.now,
    isStreaming := some true }

/-- The `run` / `handleToolCalls` mutual recursion, with explicit fuel
bounding the number of GENERATING rounds. Returns the final
`session.messages`, the full ordered `onChunk` trace, and the outcome.
On a tool_call chunk the draft is pushed and then updated in place by the
loop (the JS object is aliased, so the stored message carries the updated
calls); a missing `tool_calls` payload makes `handleToolCalls` return at
its guard, ending the turn with no further round (`stopped`). An error
chunk ends the turn without pushing the draft. -/
def runTurn (env : TurnEnv) :
    Nat → Nat → List DelverMessage →
    List DelverMessage × List GenerationChunk × TurnOutcome
  | 0, _, msgs => (msgs, [], TurnOutcome.outOfFuel)
  | fuel + 1, round, msgs =>
      let produced := generateChunks (env.signal round) 0 (env.streams round)
      let r := consumeChunks (mkDraft env round) produced
      match r.2.2 with
      | ConsumeOutcome.finished =>
          (msgs ++ [r.1], r.2.1, TurnOutcome.complete r.1)
      | ConsumeOutcome.gotError e =>
          (msgs, r.2.1, TurnOutcome.errored e)
      | ConsumeOutcome.gotToolCalls =>
          match r.1.tool_calls with
          | none => (msgs ++ [r.1], r.2.1, TurnOutcome.stopped)
          | some tcs =>
              let tr := handleToolCalls env.tools env.pm (env.toolMsgId round)
                env.now tcs
              let stored := { r.1 with tool_calls := some tr.calls }
              let rec' := runTurn env fuel (round + 1)
                (msgs ++ [stored] ++ tr.appended)
              (rec'.1, r.2.1 ++ rec'.2.1, rec'.2.2)

/-! ## Cache-hygiene predicates -/

/-- The estimator cache holds no stale entry for a message: its key is
either absent or mapped to the message's true (uncached) estimate. -/
def StaleFreeFor (cache : TokenCache) (m : DelverMessage) : Prop :=
  cache.lookup (getCacheKey m) = none ∨
    cache.lookup (getCacheKey m) = some (estimatePure m)

/-- Any two messages of the list sharing a cache key have the same true
estimate, so estimating one cannot poison the cache for the other. -/
def KeyConsistent (messages : List DelverMessage) : Prop :=
  ∀ m1 ∈ messages, ∀ m2 ∈ messages,
    getCacheKey m1 = getCacheKey m2 → estimatePure m1 = estimatePure m2

/-- The optional leading system prompt, as `getActiveMessages` prepends it. -/
def prependSystemPrompt (systemPrompt : Option DelverMessage)
    (messages : List DelverMessage) : List DelverMessage :=
  match systemPrompt with
  | some s => s :: messages
  | none => messages

/-! # Theorems -/

theorem lookup_insert_self (cache : TokenCache) (k : String) (t : Nat) :
    ((k, t) :: cache).lookup k = some t := by
  simp [List.lookup_cons]

theorem estimateMessage_lookup_snd (cache : TokenCache) (m : DelverMessage) :
    ((estimateMessage cache m).2).lookup (getCacheKey m) =
      some (estimateMessage cache m).1 := by
  unfold estimateMessage
  cases h : cache.lookup (getCacheKey m) with
  | none => simp [h, lookup_insert_self]
  | some v => simp [h]

theorem estimateMessage_snd_mono (cache : TokenCache) (m : DelverMessage)
    (k : String) (v : Nat) (h : cache.lookup k = some v) :
    ((estimateMessage cache m).2).lookup k = some v := by
  unfold estimateMessage
  cases h2 : cache.lookup (getCacheKey m) with
  | none =>
      have hne : k ≠ getCacheKey m := by
        intro he
        rw [he, h2] at h
        exact Option.noConfusion h
      simp only [h2]
      rw [List.lookup_cons]
      cases hbe : k == getCacheKey m with
      | true => exact absurd (eq_of_beq hbe) hne
      | false => simp [hbe, h]
  | some v2 => simpa [h2] using h

theorem estimateMessage_of_lookup (cache : TokenCache) (m : DelverMessage)
    (v : Nat) (h : cache.lookup (getCacheKey m) = some v) :
    estimateMessage cache m = (v, cache) := by
  unfold estimateMessage
  simp [h]

theorem estimateMessage_snd_cases (cache : TokenCache) (m : DelverMessage) :
    (estimateMessage cache m).2 = cache ∨
      (estimateMessage cache m).2 =
        (getCacheKey m, estimatePure m) :: cache := by
  unfold estimateMessage
  cases h : cache.lookup (getCacheKey m) with
  | none => right; simp [h]
  | some v => left; simp [h]

theorem estimateMessages_nil (cache : TokenCache) :
    estimateMessages cache [] = (0, cache) := rfl

theorem estimateMessages_cons (cache : TokenCache) (m : DelverMessage)
    (ms : List DelverMessage) :
    estimateMessages cache (m :: ms) =
      ((estimateMessage cache m).1 +
        (estimateMessages (estimateMessage cache m).2 ms).1,
       (estimateMessages (estimateMessage cache m).2 ms).2) := rfl

theorem estimateMessages_snd_mono (messages : List DelverMessage) :
    ∀ (cache : TokenCache) (k : String) (v : Nat),
      cache.lookup k = some v →
      ((estimateMessages cache messages).2).lookup k = some v := by
  induction messages with
  | nil => intro cache k v h; simpa [estimateMessages_nil] using h
  | cons m ms ih =>
      intro cache k v h
      rw [estimateMessages_cons]
      exact ih _ _ _ (estimateMessage_snd_mono cache m k v h)

theorem estimateMessages_stable (messages : List DelverMessage) :
    ∀ cache : TokenCache,
      estimateMessages (estimateMessages cache messages).2 messages =
        estimateMessages cache messages := by
  induction messages with
  | nil => intro cache; simp [estimateMessages_nil]
  | cons m ms ih =>
      intro cache
      rw [estimateMessages_cons cache m ms]
      have hlk :
          ((estimateMessages (estimateMessage cache m).2 ms).2).lookup
            (getCacheKey m) = some (estimateMessage cache m).1 :=
        estimateMessages_snd_mono ms _ _ _
          (estimateMessage_lookup_snd cache m)
      rw [estimateMessages_cons]
      rw [estimateMessage_of_lookup _ _ _ hlk]
      simp [ih]

theorem estimateMessage_fst_of_staleFree (cache : TokenCache)
    (m : DelverMessage) (h : StaleFreeFor cache m) :
    (estimateMessage cache m).1 = estimatePure m := by
  unfold estimateMessage
  rcases h with h | h <;> simp [h]

theorem staleFree_preserved (cache : TokenCache) (m m' : DelverMessage)
    (h' : StaleFreeFor cache m')
    (hkc : getCacheKey m = getCacheKey m' →
      estimatePure m = estimatePure m') :
    StaleFreeFor (estimateMessage cache m).2 m' := by
  rcases estimateMessage_snd_cases cache m with he | he
  · rw [he]; exact h'
  · rw [he]
    unfold StaleFreeFor
    rw [List.lookup_cons]
    cases hbe : getCacheKey m' == getCacheKey m with
    | true =>
        right
        simp only [hbe]
        exact congrArg some (hkc (eq_of_beq hbe).symm)
    | false =>
        simp only [hbe]
        exact h'

theorem estimateMessages_fst_of_staleFree (messages : List DelverMessage) :
    ∀ cache : TokenCache,
      (∀ m ∈ messages, StaleFreeFor cache m) → KeyConsistent messages →
      (estimateMessages cache messages).1 =
        (messages.map estimatePure).sum := by
  induction messages with
  | nil => intro cache _ _; simp [estimateMessages_nil]
  | cons m ms ih =>
      intro cache hsf hkc
      rw [estimateMessages_cons]
      have h1 : (estimateMessage cache m).1 = estimatePure m :=
        estimateMessage_fst_of_staleFree _ _ (hsf m (List.mem_cons_self _ _))
      have h2 : ∀ m' ∈ ms, StaleFreeFor (estimateMessage cache m).2 m' := by
        intro m' hm'
        exact staleFree_preserved _ _ _
          (hsf m' (List.mem_cons_of_mem _ hm'))
          (hkc m (List.mem_cons_self _ _) m' (List.mem_cons_of_mem _ hm'))
      have h3 : KeyConsistent ms := by
        intro a ha b hb
        exact hkc a (List.mem_cons_of_mem _ ha) b (List.mem_cons_of_mem _ hb)
      simp [h1, ih _ h2 h3]

/-- C6: with no stale cache entry, `estimateMessage` returns
`ceil((content length + thinking length if present + serialized tool_calls
length if present) / 4)` (with `Math.ceil(c / 4) = (c + 3) / 4` on naturals),
and `estimateMessages` returns the sum of `estimateMessage` over the list's
elements. -/
theorem claim_C6_token_estimation (cache : TokenCache) (m : DelverMessage)
    (messages : List DelverMessage)
    (hm : StaleFreeFor cache m)
    (hall : ∀ x ∈ messages, StaleFreeFor cache x)
    (hkc : KeyConsistent messages) :
    (estimateMessage cache m).1 =
      (m.content.length +
        (match m.thinking with
         | some t => t.length
         | none => 0) +
        (match m.tool_calls with
         | some tcs => (jsonStringifyToolCalls tcs).length
         | none => 0) + 3) / 4 ∧
    (estimateMessages cache messages).1 =
      (messages.map (fun x => (estimateMessage cache x).1)).sum := by
  constructor
  · rw [estimateMessage_fst_of_staleFree cache m hm]
    rfl
  · rw [estimateMessages_fst_of_staleFree messages cache hall hkc]
    congr 1
    apply List.map_congr_left
    intro x hx
    exact (estimateMessage_fst_of_staleFree cache x (hall x hx)).symm

/-- Witness for C6 at a concrete cache and messages, one message carrying
thinking text and a tool-call list whose JSON serialization is exercised. -/
theorem claim_C6_token_estimation_witness :
    (estimateMessage [("w-5", 2)]
        { id := "w", role := Role.user, content := "hello", timestamp := 5 }).1
      = 2 ∧
    (estimateMessages []
        [{ id := "a", role := Role.assistant, content := "hi",
           thinking := some "mull",
           tool_calls := some
             [{ function :=
                  { name := "vault_read",
                    arguments := [("path", JsonValue.str "x.md")] } }],
           timestamp := 7 },
         { id := "b", role := Role.user, content := "okay", timestamp := 8 }]).1
      = 19 := by
  have h1 := claim_C6_token_estimation [("w-5", 2)]
    { id := "w", role := Role.user, content := "hello", timestamp := 5 }
    [] (Or.inr (by decide)) (by intro x hx; cases hx) (by intro a ha; cases ha)
  have h2 := claim_C6_token_estimation []
    { id := "w", role := Role.user, content := "hello", timestamp := 5 }
    [{ id := "a", role := Role.assistant, content := "hi",
       thinking := some "mull",
       tool_calls := some
         [{ function :=
              { name := "vault_read",
                arguments := [("path", JsonValue.str "x.md")] } }],
       timestamp := 7 },
     { id := "b", role := Role.user, content := "okay", timestamp := 8 }]
    (Or.inl (by decide))
    (by
      intro x hx
      left
      rfl)
    (by
      intro a ha b hb hk
      simp only [List.mem_cons, List.not_mem_nil, or_false] at ha hb
      rcases ha with rfl | rfl <;> rcases hb with rfl | rfl
      · rfl
      · exact absurd hk (by decide)
      · exact absurd hk (by decide)
      · rfl)
  constructor
  · rw [h1.1]; decide
  · rw [h2.2]; decide

/-- C9: the estimator caches solely by `(id, timestamp)`: after estimating
`m1`, estimating any `m2` with the same cache key returns the value cached
for `m1`, regardless of `m2`'s content, thinking or tool_calls. -/
theorem claim_C9_cache_key_collision (cache : TokenCache)
    (m1 m2 : DelverMessage) (h : getCacheKey m1 = getCacheKey m2) :
    (estimateMessage ((estimateMessage cache m1).2) m2).1 =
      (estimateMessage cache m1).1 := by
  have hlk : ((estimateMessage cache m1).2).lookup (getCacheKey m2) =
      some (estimateMessage cache m1).1 := by
    rw [← h]
    exact estimateMessage_lookup_snd cache m1
  rw [estimateMessage_of_lookup _ _ _ hlk]

/-- Witness for C9: two messages with equal id and timestamp but different
content; the second estimate returns the first's cached value, not the
value its own fields would give. -/
theorem claim_C9_cache_key_collision_witness :
    (estimateMessage
        ((estimateMessage []
          { id := "m", role := Role.user, content := "abcd",
            timestamp := 3 }).2)
        { id := "m", role := Role.user, content := "abcdefgh",
          timestamp := 3 }).1 =
      (estimateMessage []
        { id := "m", role := Role.user, content := "abcd",
          timestamp := 3 }).1 ∧
    (estimateMessage []
        { id := "m", role := Role.user, content := "abcd",
          timestamp := 3 }).1 ≠
      estimatePure
        { id := "m", role := Role.user, content := "abcdefgh",
          timestamp := 3 } := by
  constructor
  · exact claim_C9_cache_key_collision []
      { id := "m", role := Role.user, content := "abcd", timestamp := 3 }
      { id := "m", role := Role.user, content := "abcdefgh", timestamp := 3 }
      rfl
  · decide

theorem getActiveMessages_rolling (cache : TokenCache) (session : ChatSession)
    (maxTokens now : Nat) (h : session.contextMode = ContextMode.rolling) :
    getActiveMessages cache session maxTokens now =
      (Except.ok (prependSystemPrompt
          (session.messages.find? (fun m => m.role == Role.system))
          (formatActive (applyRollingWindow
            (session.messages.filter (fun m => !(m.role == Role.system)))))),
       cache) := by
  unfold getActiveMessages
  rw [h]
  rfl

theorem getActiveMessages_compaction (cache : TokenCache)
    (session : ChatSession) (maxTokens now : Nat)
    (h : session.contextMode = ContextMode.compaction) :
    getActiveMessages cache session maxTokens now =
      (Except.ok (prependSystemPrompt
          (session.messages.find? (fun m => m.role == Role.system))
          (formatActive (applyCompaction cache
            (resolveBudget session.contextLimit maxTokens) now
            (session.messages.filter (fun m => !(m.role == Role.system)))).1)),
       (applyCompaction cache (resolveBudget session.contextLimit maxTokens)
          now
          (session.messages.filter (fun m => !(m.role == Role.system)))).2) := by
  unfold getActiveMessages
  rw [h]
  rfl

theorem applyHalting_exceeds (cache : TokenCache) (maxTokens : Nat)
    (messages : List DelverMessage)
    (hgt : (estimateMessages cache messages).1 > maxTokens) :
    applyHalting cache maxTokens messages =
      (Except.error ("Context limit exceeded: " ++
        toString (estimateMessages cache messages).1 ++ " tokens > " ++
        toString maxTokens ++
        " tokens. Try switching to \"rolling\" or \"compaction\" mode, or increase the context limit."),
       (estimateMessages cache messages).2) := by
  unfold applyHalting
  simp [hgt]

theorem applyHalting_ok (cache : TokenCache) (maxTokens : Nat)
    (messages : List DelverMessage)
    (hle : (estimateMessages cache messages).1 ≤ maxTokens) :
    applyHalting cache maxTokens messages =
      (Except.ok messages, (estimateMessages cache messages).2) := by
  unfold applyHalting
  simp [Nat.not_lt.mpr hle]

theorem getActiveMessages_halting (cache : TokenCache) (session : ChatSession)
    (maxTokens now : Nat) (h : session.contextMode = ContextMode.halting) :
    getActiveMessages cache session maxTokens now =
      (match applyHalting cache (resolveBudget session.contextLimit maxTokens)
          (session.messages.filter (fun m => !(m.role == Role.system))) with
       | (Except.error e, cache') => (Except.error e, cache')
       | (Except.ok active, cache') =>
           (Except.ok (prependSystemPrompt
             (session.messages.find? (fun m => m.role == Role.system))
             (formatActive active)), cache')) := by
  unfold getActiveMessages
  rw [h]
  rfl

/-- C2: in halting mode `getActiveMessages` fails iff the estimated token
total of the non-system conversation messages exceeds the resolved budget
(`contextLimit` when set and nonzero, else the provider maximum); in the
failure case the embedding returns no message list (the JS `throw` happens
before any construction, so `session.messages` is untouched — the
embedding is a pure function of the session value throughout), and
otherwise the conversation is returned unchanged, user messages
metadata-prefixed and the system message prepended. -/
theorem claim_C2_halting (cache : TokenCache) (session : ChatSession)
    (maxTokens now : Nat) (h : session.contextMode = ContextMode.halting) :
    ((∃ e, (getActiveMessages cache session maxTokens now).1 =
        Except.error e) ↔
      (estimateMessages cache
        (session.messages.filter (fun m => !(m.role == Role.system)))).1 >
        resolveBudget session.contextLimit maxTokens) ∧
    ((estimateMessages cache
        (session.messages.filter (fun m => !(m.role == Role.system)))).1 ≤
        resolveBudget session.contextLimit maxTokens →
      (getActiveMessages cache session maxTokens now).1 =
        Except.ok (prependSystemPrompt
          (session.messages.find? (fun m => m.role == Role.system))
          (formatActive
            (session.messages.filter (fun m => !(m.role == Role.system)))))) := by
  rw [getActiveMessages_halting cache session maxTokens now h]
  constructor
  · constructor
    · intro he
      by_contra hle
      rw [applyHalting_ok _ _ _ (Nat.not_lt.mp hle)] at he
      obtain ⟨e, he⟩ := he
      exact Except.noConfusion he
    · intro hgt
      rw [applyHalting_exceeds _ _ _ hgt]
      exact ⟨_, rfl⟩
  · intro hle
    rw [applyHalting_ok _ _ _ hle]

/-- Witness for C2: a session over its one-message conversation's budget
fails; raising the limit succeeds. -/
theorem claim_C2_halting_witness :
    (∃ e, (getActiveMessages []
      { id := "s", name := "n",
        messages :=
          [{ id := "u1", role := Role.user, content := "abcdefgh",
             timestamp := 0 }],
        contextMode := ContextMode.halting, contextLimit := some 1,
        model := "m", createdAt := 0, updatedAt := 0 } 100 0).1 =
        Except.error e) ∧
    (getActiveMessages []
      { id := "s", name := "n",
        messages :=
          [{ id := "u1", role := Role.user, content := "abcdefgh",
             timestamp := 0 }],
        contextMode := ContextMode.halting, contextLimit := some 4,
        model := "m", createdAt := 0, updatedAt := 0 } 100 0).1 =
      Except.ok (prependSystemPrompt none
        (formatActive
          [{ id := "u1", role := Role.user, content := "abcdefgh",
             timestamp := 0 }])) := by
  constructor
  · exact (claim_C2_halting [] _ 100 0 rfl).1.mpr (by decide)
  · exact (claim_C2_halting [] _ 100 0 rfl).2 (by decide)

theorem applyCompaction_of_le (cache : TokenCache) (maxTokens now : Nat)
    (messages : List DelverMessage) (h : messages.length ≤ 10) :
    applyCompaction cache maxTokens now messages = (messages, cache) := by
  unfold applyCompaction
  simp [h]

theorem applyCompaction_small (cache : TokenCache) (maxTokens now : Nat)
    (messages : List DelverMessage) (h : messages.length > 10)
    (htok : 10 * (estimateMessages cache (sliceLast 10 messages)).1 <
      8 * maxTokens) :
    applyCompaction cache maxTokens now messages =
      (createCompactionSummary now
          (messages.take (messages.length - 10)) ::
        sliceLast 10 messages,
       (estimateMessages cache (sliceLast 10 messages)).2) := by
  unfold applyCompaction
  simp [Nat.not_le.mpr h, Nat.not_le.mpr htok]

theorem applyCompaction_big (cache : TokenCache) (maxTokens now : Nat)
    (messages : List DelverMessage) (h : messages.length > 10)
    (htok : 10 * (estimateMessages cache (sliceLast 10 messages)).1 ≥
      8 * maxTokens) :
    applyCompaction cache maxTokens now messages =
      (applyRollingWindow messages,
       (estimateMessages cache (sliceLast 10 messages)).2) := by
  unfold applyCompaction
  simp [Nat.not_le.mpr h, htok]

/-- C3: compaction leaves a conversation of length ≤ 10 unchanged; for a
longer conversation whose recent-10 estimate is under 80% of the budget it
returns exactly one synthetic system-role summary followed by the last 10
messages; at or over 80% it falls back to the rolling window over the whole
conversation. -/
theorem claim_C3_compaction (cache : TokenCache) (maxTokens now : Nat)
    (messages : List DelverMessage) :
    (messages.length ≤ 10 →
      (applyCompaction cache maxTokens now messages).1 = messages) ∧
    (messages.length > 10 →
      (10 * (estimateMessages cache (sliceLast 10 messages)).1 <
          8 * maxTokens →
        (applyCompaction cache maxTokens now messages).1 =
          createCompactionSummary now
              (messages.take (messages.length - 10)) ::
            sliceLast 10 messages ∧
        (createCompactionSummary now
          (messages.take (messages.length - 10))).role = Role.system) ∧
      (10 * (estimateMessages cache (sliceLast 10 messages)).1 ≥
          8 * maxTokens →
        (applyCompaction cache maxTokens now messages).1 =
          applyRollingWindow messages)) := by
  refine ⟨fun h => ?_, fun h => ⟨fun htok => ⟨?_, rfl⟩, fun htok => ?_⟩⟩
  · rw [applyCompaction_of_le cache maxTokens now messages h]
  · rw [applyCompaction_small cache maxTokens now messages h (by assumption)]
  · rw [applyCompaction_big cache maxTokens now messages h htok]

/-- Witness for C3: an 11-message conversation with a generous budget gets
a summary plus the last 10; the same conversation with budget 1 falls back
to the rolling window; a 5-message conversation is unchanged. -/
theorem claim_C3_compaction_witness :
    (applyCompaction [] 50 0 (List.replicate 5
      { id := "u", role := Role.user, content := "abcd", timestamp := 0 })).1 =
      List.replicate 5
        { id := "u", role := Role.user, content := "abcd", timestamp := 0 } ∧
    (applyCompaction [] 50 0 (List.replicate 11
      { id := "u", role := Role.user, content := "abcd", timestamp := 0 })).1 =
      createCompactionSummary 0
          (List.replicate 1
            { id := "u", role := Role.user, content := "abcd",
              timestamp := 0 }) ::
        List.replicate 10
          { id := "u", role := Role.user, content := "abcd", timestamp := 0 } ∧
    (applyCompaction [] 1 0 (List.replicate 11
      { id := "u", role := Role.user, content := "abcd", timestamp := 0 })).1 =
      applyRollingWindow (List.replicate 11
        { id := "u", role := Role.user, content := "abcd", timestamp := 0 }) := by
  refine ⟨?_, ?_, ?_⟩
  · exact (claim_C3_compaction [] 50 0 _).1 (by decide)
  · have h := ((claim_C3_compaction [] 50 0 (List.replicate 11
      { id := "u", role := Role.user, content := "abcd",
        timestamp := 0 })).2 (by decide)).1 (by decide)
    rw [h.1]
    rfl
  · exact ((claim_C3_compaction [] 1 0 _).2 (by decide)).2 (by decide)

/-- C4: in rolling mode the conversation part of the result is exactly the
last `min L 20` conversation messages in original order (it is the suffix
complementing the first `L - 20`), and `getActiveMessages` wraps it with
metadata-formatting and the prepended system message. -/
theorem claim_C4_rolling (cache : TokenCache) (session : ChatSession)
    (maxTokens now : Nat) (h : session.contextMode = ContextMode.rolling) :
    (applyRollingWindow
        (session.messages.filter (fun m => !(m.role == Role.system)))).length =
      min (session.messages.filter (fun m => !(m.role == Role.system))).length
        20 ∧
    (session.messages.filter (fun m => !(m.role == Role.system))).take
        ((session.messages.filter (fun m => !(m.role == Role.system))).length -
          20) ++
      applyRollingWindow
        (session.messages.filter (fun m => !(m.role == Role.system))) =
      session.messages.filter (fun m => !(m.role == Role.system)) ∧
    (getActiveMessages cache session maxTokens now).1 =
      Except.ok (prependSystemPrompt
        (session.messages.find? (fun m => m.role == Role.system))
        (formatActive (applyRollingWindow
          (session.messages.filter (fun m => !(m.role == Role.system)))))) := by
  refine ⟨?_, ?_, ?_⟩
  · unfold applyRollingWindow sliceLast
    rw [List.length_drop]
    omega
  · exact List.take_append_drop _ _
  · rw [getActiveMessages_rolling cache session maxTokens now h]

/-- Witness for C4: a session with a system message and three user
messages in rolling mode. -/
theorem claim_C4_rolling_witness :
    (applyRollingWindow
      [{ id := "u1", role := Role.user, content := "a", timestamp := 1 },
       { id := "u2", role := Role.user, content := "b", timestamp := 2 },
       { id := "u3", role := Role.user, content := "c", timestamp := 3 }]).length = 3 ∧
    (getActiveMessages []
      { id := "s", name := "n",
        messages :=
          [{ id := "sys", role := Role.system, content := "SP", timestamp := 0 },
           { id := "u1", role := Role.user, content := "a", timestamp := 1 },
           { id := "u2", role := Role.user, content := "b", timestamp := 2 },
           { id := "u3", role := Role.user, content := "c", timestamp := 3 }],
        contextMode := ContextMode.rolling, contextLimit := none,
        model := "m", createdAt := 0, updatedAt := 0 } 100 9).1 =
      Except.ok (prependSystemPrompt
        (some
          { id := "sys", role := Role.system, content := "SP",
            timestamp := 0 })
        (formatActive
          [{ id := "u1", role := Role.user, content := "a", timestamp := 1 },
           { id := "u2", role := Role.user, content := "b", timestamp := 2 },
           { id := "u3", role := Role.user, content := "c", timestamp := 3 }])) := by
  have h := claim_C4_rolling []
    { id := "s", name := "n",
      messages :=
        [{ id := "sys", role := Role.system, content := "SP", timestamp := 0 },
         { id := "u1", role := Role.user, content := "a", timestamp := 1 },
         { id := "u2", role := Role.user, content := "b", timestamp := 2 },
         { id := "u3", role := Role.user, content := "c", timestamp := 3 }],
      contextMode := ContextMode.rolling, contextLimit := none,
      model := "m", createdAt := 0, updatedAt := 0 } 100 9 rfl
  constructor
  · exact h.1.trans (by rfl)
  · exact h.2.2.trans (by rfl)


theorem applyCompaction_stable (cache : TokenCache) (maxTokens now : Nat)
    (messages : List DelverMessage) :
    applyCompaction (applyCompaction cache maxTokens now messages).2 maxTokens
        now messages =
      applyCompaction cache maxTokens now messages := by
  by_cases hlen : messages.length ≤ 10
  · rw [applyCompaction_of_le cache maxTokens now messages hlen]
    rw [applyCompaction_of_le cache maxTokens now messages hlen]
  · push_neg at hlen
    have hst := estimateMessages_stable (sliceLast 10 messages) cache
    by_cases htok : 10 * (estimateMessages cache (sliceLast 10 messages)).1 <
        8 * maxTokens
    · rw [applyCompaction_small cache maxTokens now messages hlen htok]
      have htok2 : 10 * (estimateMessages
          (estimateMessages cache (sliceLast 10 messages)).2
          (sliceLast 10 messages)).1 < 8 * maxTokens := by
        rw [hst]; exact htok
      rw [applyCompaction_small _ maxTokens now messages hlen htok2, hst]
    · push_neg at htok
      rw [applyCompaction_big cache maxTokens now messages hlen htok]
      have htok2 : 10 * (estimateMessages
          (estimateMessages cache (sliceLast 10 messages)).2
          (sliceLast 10 messages)).1 ≥ 8 * maxTokens := by
        rw [hst]; exact htok
      rw [applyCompaction_big _ maxTokens now messages hlen htok2, hst]

theorem applyHalting_stable (cache : TokenCache) (maxTokens : Nat)
    (messages : List DelverMessage) :
    applyHalting (applyHalting cache maxTokens messages).2 maxTokens
        messages =
      applyHalting cache maxTokens messages := by
  have hst := estimateMessages_stable messages cache
  by_cases hgt : (estimateMessages cache messages).1 > maxTokens
  · rw [applyHalting_exceeds cache maxTokens messages hgt]
    have hgt2 : (estimateMessages (estimateMessages cache messages).2
        messages).1 > maxTokens := by
      rw [hst]; exact hgt
    rw [applyHalting_exceeds _ maxTokens messages hgt2, hst]
  · push_neg at hgt
    rw [applyHalting_ok cache maxTokens messages hgt]
    have hgt2 : (estimateMessages (estimateMessages cache messages).2
        messages).1 ≤ maxTokens := by
      rw [hst]; exact hgt
    rw [applyHalting_ok _ maxTokens messages hgt2, hst]

/-- C5: `getActiveMessages` derives rather than mutates: re-running it on
the unchanged session (with whatever estimator cache the first run left)
returns the identical message list, byte-identical prefixed user content
included, and the metadata block prepended to user content is a pure
function of the message timestamp alone. The embedding is a pure function
of the session value — the source builds the result from fresh arrays and
object copies, leaving `session.messages` untouched. -/
theorem claim_C5_idempotent (cache : TokenCache) (session : ChatSession)
    (maxTokens now : Nat) :
    (getActiveMessages ((getActiveMessages cache session maxTokens now).2)
        session maxTokens now).1 =
      (getActiveMessages cache session maxTokens now).1 ∧
    (∀ m1 m2 : DelverMessage, m1.timestamp = m2.timestamp →
      ∃ p, (formatUserMessageWithMetadata m1).content = p ++ m1.content ∧
        (formatUserMessageWithMetadata m2).content = p ++ m2.content) := by
  constructor
  · cases hmode : session.contextMode with
    | rolling =>
        rw [getActiveMessages_rolling cache session maxTokens now hmode]
        rw [getActiveMessages_rolling _ session maxTokens now hmode]
    | compaction =>
        rw [getActiveMessages_compaction cache session maxTokens now hmode]
        rw [getActiveMessages_compaction _ session maxTokens now hmode]
        rw [applyCompaction_stable]
    | halting =>
        rw [getActiveMessages_halting cache session maxTokens now hmode]
        rw [getActiveMessages_halting _ session maxTokens now hmode]
        rcases hA : applyHalting cache
            (resolveBudget session.contextLimit maxTokens)
            (session.messages.filter (fun m => !(m.role == Role.system)))
          with ⟨a, c⟩
        have hst := applyHalting_stable cache
          (resolveBudget session.contextLimit maxTokens)
          (session.messages.filter (fun m => !(m.role == Role.system)))
        rw [hA] at hst
        cases a with
        | error e => simp only [hst]
        | ok active => simp only [hst]
  · intro m1 m2 h12
    refine ⟨metadataBlock m1.timestamp, rfl, ?_⟩
    show metadataBlock m2.timestamp ++ m2.content =
      metadataBlock m1.timestamp ++ m2.content
    rw [h12]

/-- Witness for C5 at a concrete compaction-mode session (so the estimator
cache is actually exercised) and two concrete messages sharing a
timestamp. -/
theorem claim_C5_idempotent_witness :
    (getActiveMessages
        ((getActiveMessages []
          { id := "s", name := "n",
            messages := List.replicate 12
              { id := "u", role := Role.user, content := "abcd",
                timestamp := 4 },
            contextMode := ContextMode.compaction, contextLimit := some 40,
            model := "m", createdAt := 0, updatedAt := 0 } 100 9).2)
        { id := "s", name := "n",
          messages := List.replicate 12
            { id := "u", role := Role.user, content := "abcd",
              timestamp := 4 },
          contextMode := ContextMode.compaction, contextLimit := some 40,
          model := "m", createdAt := 0, updatedAt := 0 } 100 9).1 =
      (getActiveMessages []
        { id := "s", name := "n",
          messages := List.replicate 12
            { id := "u", role := Role.user, content := "abcd",
              timestamp := 4 },
          contextMode := ContextMode.compaction, contextLimit := some 40,
          model := "m", createdAt := 0, updatedAt := 0 } 100 9).1 ∧
    ∃ p,
      (formatUserMessageWithMetadata
        { id := "x", role := Role.user, content := "one",
          timestamp := 123456789 }).content =
        p ++ "one" ∧
      (formatUserMessageWithMetadata
        { id := "y", role := Role.user, content := "two",
          timestamp := 123456789 }).content =
        p ++ "two" := by
  constructor
  · exact (claim_C5_idempotent []
      { id := "s", name := "n",
        messages := List.replicate 12
          { id := "u", role := Role.user, content := "abcd",
            timestamp := 4 },
        contextMode := ContextMode.compaction, contextLimit := some 40,
        model := "m", createdAt := 0, updatedAt := 0 } 100 9).1
  · exact (claim_C5_idempotent []
      { id := "s", name := "n", messages := [],
        contextMode := ContextMode.rolling, model := "m", createdAt := 0,
        updatedAt := 0 } 100 9).2
      { id := "x", role := Role.user, content := "one",
        timestamp := 123456789 }
      { id := "y", role := Role.user, content := "two",
        timestamp := 123456789 }
      rfl


theorem mem_applyCompaction (cache : TokenCache) (maxTokens now : Nat)
    (messages : List DelverMessage) (x : DelverMessage)
    (hx : x ∈ (applyCompaction cache maxTokens now messages).1) :
    x ∈ messages ∨
      x = createCompactionSummary now
        (messages.take (messages.length - 10)) := by
  by_cases hlen : messages.length ≤ 10
  · rw [applyCompaction_of_le _ _ _ _ hlen] at hx
    exact Or.inl hx
  · push_neg at hlen
    by_cases htok : 10 * (estimateMessages cache (sliceLast 10 messages)).1 <
        8 * maxTokens
    · rw [applyCompaction_small _ _ _ _ hlen htok] at hx
      rcases List.mem_cons.mp hx with h | h
      · exact Or.inr h
      · exact Or.inl (List.drop_subset _ _ h)
    · push_neg at htok
      rw [applyCompaction_big _ _ _ _ hlen htok] at hx
      exact Or.inl (List.drop_subset _ _ hx)

theorem mem_formatActive (l : List DelverMessage) (m : DelverMessage)
    (hm : m ∈ formatActive l) :
    ∃ m0 ∈ l, m.role = m0.role ∧ (m0.role ≠ Role.user → m = m0) := by
  unfold formatActive at hm
  rcases List.mem_map.mp hm with ⟨m0, hm0, heq⟩
  refine ⟨m0, hm0, ?_, ?_⟩
  · rw [← heq]
    by_cases hrole : m0.role = Role.user
    · simp [hrole, formatUserMessageWithMetadata]
    · simp [hrole]
  · intro hnu
    rw [← heq]
    simp [hnu]

theorem role_ne_system_of_mem_filter (l : List DelverMessage)
    (m : DelverMessage)
    (h : m ∈ l.filter (fun x => !(x.role == Role.system))) :
    m.role ≠ Role.system := by
  have hb := (List.mem_filter.mp h).2
  simpa using hb

theorem applyHalting_ok_inv (cache : TokenCache) (maxTokens : Nat)
    (messages active : List DelverMessage) (cache2 : TokenCache)
    (h : applyHalting cache maxTokens messages = (Except.ok active, cache2)) :
    active = messages := by
  by_cases hgt : (estimateMessages cache messages).1 > maxTokens
  · rw [applyHalting_exceeds cache maxTokens messages hgt] at h
    exact Except.noConfusion (congrArg Prod.fst h)
  · push_neg at hgt
    rw [applyHalting_ok cache maxTokens messages hgt] at h
    have := congrArg Prod.fst h
    simpa using this.symm

/-- C10: for every session — even one violating the single-system-message
invariant — `getActiveMessages` strips every stored system-role message
out of the conversation before the mode reduction; a successful result is
the first stored system-role message (byte-identical, found by `find?`)
followed by a remainder whose only possible system-role element is the
synthetic compaction summary, never a stored system message. -/
theorem claim_C10_system_messages (cache : TokenCache) (session : ChatSession)
    (maxTokens now : Nat) (out : List DelverMessage)
    (h : (getActiveMessages cache session maxTokens now).1 = Except.ok out) :
    ∃ rest,
      out = prependSystemPrompt
        (session.messages.find? (fun m => m.role == Role.system)) rest ∧
      (∀ m ∈ rest, m.role = Role.system →
        m = createCompactionSummary now
          ((session.messages.filter (fun x => !(x.role == Role.system))).take
            ((session.messages.filter
              (fun x => !(x.role == Role.system))).length - 10))) ∧
      (∀ s, session.messages.find? (fun m => m.role == Role.system) = some s →
        out.head? = some s ∧ s.role = Role.system ∧
        ∃ pre post, session.messages = pre ++ s :: post ∧
          ∀ a ∈ pre, a.role ≠ Role.system) := by
  have hfind : ∀ s,
      session.messages.find? (fun m => m.role == Role.system) = some s →
      s.role = Role.system ∧
        ∃ pre post, session.messages = pre ++ s :: post ∧
          ∀ a ∈ pre, a.role ≠ Role.system := by
    intro s hs
    rcases List.find?_eq_some.mp hs with ⟨hps, pre, post, hdec, hpre⟩
    refine ⟨by simpa using hps, pre, post, hdec, ?_⟩
    intro a ha
    have := hpre a ha
    simpa using this
  have hrest : ∀ rest, out = prependSystemPrompt
      (session.messages.find? (fun m => m.role == Role.system)) rest →
      (∀ s, session.messages.find? (fun m => m.role == Role.system) = some s →
        out.head? = some s ∧ s.role = Role.system ∧
        ∃ pre post, session.messages = pre ++ s :: post ∧
          ∀ a ∈ pre, a.role ≠ Role.system) := by
    intro rest hout s hs
    rcases hfind s hs with ⟨hrole, hdec⟩
    refine ⟨?_, hrole, hdec⟩
    rw [hout, hs]
    rfl
  cases hmode : session.contextMode with
  | rolling =>
      rw [getActiveMessages_rolling cache session maxTokens now hmode] at h
      have hout := (Except.ok.injEq _ _).mp h.symm
      refine ⟨formatActive (applyRollingWindow
        (session.messages.filter (fun m => !(m.role == Role.system)))),
        hout, ?_, hrest _ hout⟩
      intro m hm hsys
      rcases mem_formatActive _ _ hm with ⟨m0, hm0, hrole, _⟩
      have hm0conv : m0 ∈ session.messages.filter
          (fun x => !(x.role == Role.system)) :=
        List.drop_subset _ _ hm0
      exact absurd (hrole.symm.trans hsys)
        (role_ne_system_of_mem_filter _ _ hm0conv)
  | compaction =>
      rw [getActiveMessages_compaction cache session maxTokens now hmode] at h
      have hout := (Except.ok.injEq _ _).mp h.symm
      refine ⟨formatActive (applyCompaction cache
          (resolveBudget session.contextLimit maxTokens) now
          (session.messages.filter (fun m => !(m.role == Role.system)))).1,
        hout, ?_, hrest _ hout⟩
      intro m hm hsys
      rcases mem_formatActive _ _ hm with ⟨m0, hm0, hrole, hid⟩
      rcases mem_applyCompaction _ _ _ _ _ hm0 with hconv | hsum
      · exact absurd (hrole.symm.trans hsys)
          (role_ne_system_of_mem_filter _ _ hconv)
      · have hm0sys : m0.role = Role.system := by
          rw [hsum]; rfl
        have hm0nu : m0.role ≠ Role.user := by
          rw [hm0sys]; exact fun hc => Role.noConfusion hc
        rw [hid hm0nu, hsum]
  | halting =>
      rw [getActiveMessages_halting cache session maxTokens now hmode] at h
      rcases hA : applyHalting cache
          (resolveBudget session.contextLimit maxTokens)
          (session.messages.filter (fun m => !(m.role == Role.system)))
        with ⟨a, c⟩
      rw [hA] at h
      cases a with
      | error e => exact Except.noConfusion h
      | ok active =>
          have hactive := applyHalting_ok_inv _ _ _ _ _ hA
          subst hactive
          have hout := (Except.ok.injEq _ _).mp h.symm
          refine ⟨formatActive (session.messages.filter
            (fun m => !(m.role == Role.system))), hout, ?_, hrest _ hout⟩
          intro m hm hsys
          rcases mem_formatActive _ _ hm with ⟨m0, hm0, hrole, _⟩
          exact absurd (hrole.symm.trans hsys)
            (role_ne_system_of_mem_filter _ _ hm0)

/-- Witness for C10: a session that violates the invariant with two stored
system messages; only the first survives, at the head. -/
theorem claim_C10_system_messages_witness :
    ∃ rest,
      (prependSystemPrompt
        (some
          { id := "sys1", role := Role.system, content := "A",
            timestamp := 0 })
        (formatActive
          [{ id := "u1", role := Role.user, content := "hi",
             timestamp := 1 }])) =
        prependSystemPrompt
          ([{ id := "sys1", role := Role.system, content := "A",
              timestamp := 0 },
            { id := "u1", role := Role.user, content := "hi",
              timestamp := 1 },
            { id := "sys2", role := Role.system, content := "B",
              timestamp := 2 }].find? (fun m => m.role == Role.system)) rest ∧
      (∀ m ∈ rest, m.role = Role.system →
        m = createCompactionSummary 9
          ((([{ id := "sys1", role := Role.system, content := "A",
                timestamp := 0 },
              { id := "u1", role := Role.user, content := "hi",
                timestamp := 1 },
              { id := "sys2", role := Role.system, content := "B",
                timestamp := 2 }] : List DelverMessage).filter
                (fun x => !(x.role == Role.system))).take
            ((([{ id := "sys1", role := Role.system, content := "A",
                  timestamp := 0 },
                { id := "u1", role := Role.user, content := "hi",
                  timestamp := 1 },
                { id := "sys2", role := Role.system, content := "B",
                  timestamp := 2 }] : List DelverMessage).filter
                  (fun x => !(x.role == Role.system))).length - 10))) ∧
      (∀ s, ([{ id := "sys1", role := Role.system, content := "A",
                timestamp := 0 },
              { id := "u1", role := Role.user, content := "hi",
                timestamp := 1 },
              { id := "sys2", role := Role.system, content := "B",
                timestamp := 2 }] : List DelverMessage).find?
              (fun m => m.role == Role.system) =
              some s →
        (prependSystemPrompt
          (some
            { id := "sys1", role := Role.system, content := "A",
              timestamp := 0 })
          (formatActive
            [{ id := "u1", role := Role.user, content := "hi",
               timestamp := 1 }])).head? = some s ∧
        s.role = Role.system ∧
        ∃ pre post,
          ([{ id := "sys1", role := Role.system, content := "A",
              timestamp := 0 },
            { id := "u1", role := Role.user, content := "hi",
              timestamp := 1 },
            { id := "sys2", role := Role.system, content := "B",
              timestamp := 2 }] : List DelverMessage) = pre ++ s :: post ∧
          ∀ a ∈ pre, a.role ≠ Role.system) :=
  claim_C10_system_messages []
    { id := "s", name := "n",
      messages :=
        [{ id := "sys1", role := Role.system, content := "A",
           timestamp := 0 },
         { id := "u1", role := Role.user, content := "hi",
           timestamp := 1 },
         { id := "sys2", role := Role.system, content := "B",
           timestamp := 2 }],
      contextMode := ContextMode.rolling, contextLimit := none,
      model := "m", createdAt := 0, updatedAt := 0 } 100 9
    (prependSystemPrompt
      (some
        { id := "sys1", role := Role.system, content := "A",
          timestamp := 0 })
      (formatActive
        [{ id := "u1", role := Role.user, content := "hi",
           timestamp := 1 }]))
    (by rfl)


theorem processToolCall_message_iff_executed (env : ToolEnv)
    (pm : PermissionManager) (msgId : String) (now : Nat) (tc : ToolCall) :
    ((processToolCall env pm msgId now tc).executed = true ∧
      (processToolCall env pm msgId now tc).message =
        some (mkToolResultMessage msgId now tc.function.name
          (processToolCall env pm msgId now tc).call)) ∨
    ((processToolCall env pm msgId now tc).executed = false ∧
      (processToolCall env pm msgId now tc).message = none) := by
  rcases h1 : env.registry.getTool tc.function.name with _ | tool <;>
    by_cases h2 : pm.isDisabled tc.function.name = true <;>
      by_cases h3 : pm.isDenied tc.function.name = true <;>
        by_cases h4 : pm.requiresPrompt tc.function.name = true <;>
          by_cases h5 : env.approve tc = true <;>
            simp [processToolCall, h1, h2, h3, h4, h5]

theorem processToolCall_denied (env : ToolEnv) (pm : PermissionManager)
    (msgId : String) (now : Nat) (tc : ToolCall) (tool : BaseTool)
    (hht : env.registry.getTool tc.function.name = some tool)
    (hdeny : pm.getPermission tc.function.name = ToolPermission.deny) :
    (processToolCall env pm msgId now tc).call =
      { tc with
          permissionStatus := some PermissionStatus.denied,
          error := some ("Tool is denied: " ++ tc.function.name) } ∧
    (processToolCall env pm msgId now tc).message = none ∧
    (processToolCall env pm msgId now tc).prompted = false ∧
    (processToolCall env pm msgId now tc).executed = false := by
  have h2 : pm.isDisabled tc.function.name = false := by
    simp [PermissionManager.isDisabled, hdeny]
  have h3 : pm.isDenied tc.function.name = true := by
    simp [PermissionManager.isDenied, hdeny]
  unfold processToolCall
  simp [hht, h2, h3]

theorem handleToolCallsAux_appended_execs (env : ToolEnv)
    (pm : PermissionManager) (mkId : Nat → String) (now : Nat) :
    ∀ (tcs : List ToolCall) (k : Nat),
      (handleToolCallsAux env pm mkId now k tcs).appended.length =
        (handleToolCallsAux env pm mkId now k tcs).execs.length := by
  intro tcs
  induction tcs with
  | nil => intro k; rfl
  | cons tc rest ih =>
      intro k
      simp only [handleToolCallsAux]
      rcases processToolCall_message_iff_executed env pm (mkId k) now tc with
        ⟨he, hm⟩ | ⟨he, hm⟩ <;>
          simp [hm, he, ih (k + 1)]

/-- C1 (amended): `handleToolCalls` appends exactly one tool-role message
per entry that reaches execution — with tool_name the call's name and
content the call's result if non-empty, else its error if non-empty, else
"No result" — and no tool-role message for any other entry; in particular
a registered tool whose policy is deny gets permissionStatus denied and
error "Tool is denied: <name>" recorded on the call, no permission prompt,
no `execute` call, and no appended message. -/
theorem claim_C1_tool_result_messages (env : ToolEnv) (pm : PermissionManager)
    (mkId : Nat → String) (now : Nat) (toolCalls : List ToolCall)
    (msgId : String) (tc : ToolCall) :
    (handleToolCalls env pm mkId now toolCalls).appended.length =
      (handleToolCalls env pm mkId now toolCalls).execs.length ∧
    ((processToolCall env pm msgId now tc).executed = true →
      (processToolCall env pm msgId now tc).message =
        some
          { id := msgId, role := Role.tool,
            content := jsOrString
              (processToolCall env pm msgId now tc).call.result
              (jsOrString (processToolCall env pm msgId now tc).call.error
                "No result"),
            tool_name := some tc.function.name, timestamp := now }) ∧
    ((processToolCall env pm msgId now tc).executed = false →
      (processToolCall env pm msgId now tc).message = none) ∧
    (∀ tool : BaseTool, env.registry.getTool tc.function.name = some tool →
      pm.getPermission tc.function.name = ToolPermission.deny →
      (processToolCall env pm msgId now tc).call.permissionStatus =
          some PermissionStatus.denied ∧
        (processToolCall env pm msgId now tc).call.error =
          some ("Tool is denied: " ++ tc.function.name) ∧
        (processToolCall env pm msgId now tc).message = none ∧
        (processToolCall env pm msgId now tc).prompted = false ∧
        (processToolCall env pm msgId now tc).executed = false) := by
  refine ⟨handleToolCallsAux_appended_execs env pm mkId now toolCalls 0,
    ?_, ?_, ?_⟩
  · intro hex
    rcases processToolCall_message_iff_executed env pm msgId now tc with
      ⟨_, hm⟩ | ⟨he, _⟩
    · rw [hm]; rfl
    · rw [he] at hex; exact Bool.noConfusion hex
  · intro hex
    rcases processToolCall_message_iff_executed env pm msgId now tc with
      ⟨he, _⟩ | ⟨_, hm⟩
    · rw [he] at hex; exact Bool.noConfusion hex
    · exact hm
  · intro tool hht hdeny
    rcases processToolCall_denied env pm msgId now tc tool hht hdeny with
      ⟨hcall, hm, hp, he⟩
    rw [hcall]
    exact ⟨rfl, rfl, hm, hp, he⟩

/-- Witness for C1 (amended): an allow-policy registered tool is executed
and yields exactly one tool-role message with the result as content; a
deny-policy call yields none. -/
theorem claim_C1_tool_result_messages_witness :
    (handleToolCalls
      { registry :=
          { tools :=
              [("vault_read",
                { name := "vault_read",
                  execute := fun _ => Except.ok "file contents" })] },
        approve := fun _ => true }
      { permissions := [("vault_read", ToolPermission.allow)] }
      (fun k => "msg-" ++ toString k) 7
      [{ function := { name := "vault_read", arguments := [] } }]).appended =
      [{ id := "msg-0", role := Role.tool, content := "file contents",
          tool_name := some "vault_read", timestamp := 7 }] ∧
    (processToolCall
      { registry :=
          { tools :=
              [("vault_read",
                { name := "vault_read",
                  execute := fun _ => Except.ok "file contents" })] },
        approve := fun _ => true }
      { permissions := [("vault_read", ToolPermission.deny)] }
      "msg-0" 7
      { function := { name := "vault_read", arguments := [] } }).message =
      none := by
  constructor
  · rfl
  · exact ((claim_C1_tool_result_messages
      { registry :=
          { tools :=
              [("vault_read",
                { name := "vault_read",
                  execute := fun _ => Except.ok "file contents" })] },
        approve := fun _ => true }
      { permissions := [("vault_read", ToolPermission.deny)] }
      (fun k => "msg-" ++ toString k) 7 [] "msg-0"
      { function := { name := "vault_read", arguments := [] } }).2.2.2
      { name := "vault_read", execute := fun _ => Except.ok "file contents" }
      rfl rfl).2.2.1

/-- C1 counterexample: tool "vault_read" registered with policy deny; the
assistant tool_call list has one entry, yet zero tool-role messages are
appended (the loop continues to the next entry before the push), no prompt
is made and `execute` is never called — against the claim's "exactly one
tool-role message per entry" with content "Tool is denied: vault_read". -/
theorem claim_C1_counterexample :
    (handleToolCalls
      { registry :=
          { tools :=
              [("vault_read",
                { name := "vault_read",
                  execute := fun _ => Except.ok "file contents" })] },
        approve := fun _ => true }
      { permissions := [("vault_read", ToolPermission.deny)] }
      (fun k => "msg-" ++ toString k) 7
      [{ function := { name := "vault_read", arguments := [] } }]).appended =
      [] ∧
    (handleToolCalls
      { registry :=
          { tools :=
              [("vault_read",
                { name := "vault_read",
                  execute := fun _ => Except.ok "file contents" })] },
        approve := fun _ => true }
      { permissions := [("vault_read", ToolPermission.deny)] }
      (fun k => "msg-" ++ toString k) 7
      [{ function := { name := "vault_read", arguments := [] } }]).prompts =
      [] ∧
    (handleToolCalls
      { registry :=
          { tools :=
              [("vault_read",
                { name := "vault_read",
                  execute := fun _ => Except.ok "file contents" })] },
        approve := fun _ => true }
      { permissions := [("vault_read", ToolPermission.deny)] }
      (fun k => "msg-" ++ toString k) 7
      [{ function := { name := "vault_read", arguments := [] } }]).execs =
      [] ∧
    ([{ function := { name := "vault_read", arguments := [] } }] :
      List ToolCall).length = 1 :=
  ⟨rfl, rfl, rfl, rfl⟩


theorem exists_suffix_assoc (x y1 y2 z : List DelverMessage)
    (h : ∃ s, z = ((x ++ y1) ++ y2) ++ s) : ∃ s, z = x ++ s := by
  rcases h with ⟨s, hs⟩
  exact ⟨y1 ++ (y2 ++ s), by rw [hs]; simp [List.append_assoc]⟩

theorem runTurn_append_only (env : TurnEnv) :
    ∀ (fuel round : Nat) (msgs : List DelverMessage),
      ∃ suffix, (runTurn env fuel round msgs).1 = msgs ++ suffix := by
  intro fuel
  induction fuel with
  | zero => intro round msgs; exact ⟨[], (List.append_nil msgs).symm⟩
  | succ n ih =>
      intro round msgs
      simp only [runTurn]
      rcases hoc : (consumeChunks (mkDraft env round)
          (generateChunks (env.signal round) 0 (env.streams round))).2.2 with
        _ | _ | e
      · exact ⟨_, rfl⟩
      · rcases htc : (consumeChunks (mkDraft env round)
            (generateChunks (env.signal round) 0
              (env.streams round))).1.tool_calls with
          _ | tcs
        · exact ⟨_, rfl⟩
        · exact exists_suffix_assoc _ _ _ _ (ih (round + 1) _)
      · exact ⟨[], (List.append_nil msgs).symm⟩

/-- C7: across a whole turn (all rounds of `run`, including tool handling
and the continuation recursion) the session message list only grows by
appended messages, never losing or reordering what was there; and for an
assistant message with tool_calls `[A, B]` the calls are processed
sequentially in array order, so the appended tool-role messages are
exactly A's (zero or one) followed by B's. -/
theorem claim_C7_append_only_ordered (env : TurnEnv) (fuel round : Nat)
    (msgs : List DelverMessage) (toolEnv : ToolEnv) (pm : PermissionManager)
    (mkId : Nat → String) (now : Nat) (A B : ToolCall) :
    (∃ suffix, (runTurn env fuel round msgs).1 = msgs ++ suffix) ∧
    (handleToolCalls toolEnv pm mkId now [A, B]).appended =
      (processToolCall toolEnv pm (mkId 0) now A).message.toList ++
        (processToolCall toolEnv pm (mkId 1) now B).message.toList := by
  constructor
  · exact runTurn_append_only env fuel round msgs
  · simp [handleToolCalls, handleToolCallsAux]

/-- Witness for C7: a two-round turn (one tool_call chunk round, then a
completed round) starting from a one-message session, and two concrete
tool calls A (allow, executes) and B (deny, skipped). -/
theorem claim_C7_append_only_ordered_witness :
    (∃ suffix,
      (runTurn
        { tools :=
            { registry :=
                { tools :=
                    [("a", { name := "a", execute := fun _ => Except.ok "r" }),
                     ("b", { name := "b", execute := fun _ => Except.ok "r" })] },
              approve := fun _ => true },
          pm := { permissions := [("a", ToolPermission.allow)] },
          streams := fun round =>
            if round = 0 then
              [{ type := ChunkType.toolCall,
                  tool_calls := some
                    [{ function := { name := "a", arguments := [] } }] }]
            else [{ type := ChunkType.done, done := some true }],
          signal := fun _ _ => false,
          draftId := fun r => "draft-" ++ toString r,
          toolMsgId := fun r k => "tool-" ++ toString r ++ "-" ++ toString k,
          now := 5 } 3 0
        [{ id := "u0", role := Role.user, content := "q",
           timestamp := 0 }]).1 =
      [{ id := "u0", role := Role.user, content := "q",
         timestamp := 0 }] ++ suffix) ∧
    (handleToolCalls
      { registry :=
          { tools :=
              [("a", { name := "a", execute := fun _ => Except.ok "r" }),
               ("b", { name := "b", execute := fun _ => Except.ok "r" })] },
        approve := fun _ => true }
      { permissions := [("a", ToolPermission.allow),
          ("b", ToolPermission.deny)] }
      (fun k => "m-" ++ toString k) 5
      [{ function := { name := "a", arguments := [] } },
       { function := { name := "b", arguments := [] } }]).appended =
      (processToolCall
        { registry :=
            { tools :=
                [("a", { name := "a", execute := fun _ => Except.ok "r" }),
                 ("b", { name := "b", execute := fun _ => Except.ok "r" })] },
          approve := fun _ => true }
        { permissions := [("a", ToolPermission.allow),
            ("b", ToolPermission.deny)] }
        "m-0" 5
        { function := { name := "a", arguments := [] } }).message.toList ++
        (processToolCall
          { registry :=
              { tools :=
                  [("a", { name := "a", execute := fun _ => Except.ok "r" }),
                   ("b", { name := "b", execute := fun _ => Except.ok "r" })] },
            approve := fun _ => true }
          { permissions := [("a", ToolPermission.allow),
              ("b", ToolPermission.deny)] }
          "m-1" 5
          { function := { name := "b", arguments := [] } }).message.toList :=
  ⟨(claim_C7_append_only_ordered
      { tools :=
          { registry :=
              { tools :=
                  [("a", { name := "a", execute := fun _ => Except.ok "r" }),
                   ("b", { name := "b", execute := fun _ => Except.ok "r" })] },
            approve := fun _ => true },
        pm := { permissions := [("a", ToolPermission.allow)] },
        streams := fun round =>
          if round = 0 then
            [{ type := ChunkType.toolCall,
                tool_calls := some
                  [{ function := { name := "a", arguments := [] } }] }]
          else [{ type := ChunkType.done, done := some true }],
        signal := fun _ _ => false,
        draftId := fun r => "draft-" ++ toString r,
        toolMsgId := fun r k => "tool-" ++ toString r ++ "-" ++ toString k,
        now := 5 } 3 0
      [{ id := "u0", role := Role.user, content := "q", timestamp := 0 }]
      { registry :=
          { tools :=
              [("a", { name := "a", execute := fun _ => Except.ok "r" }),
               ("b", { name := "b", execute := fun _ => Except.ok "r" })] },
        approve := fun _ => true }
      { permissions := [] } (fun k => "m-" ++ toString k) 5
      { function := { name := "a", arguments := [] } }
      { function := { name := "b", arguments := [] } }).1,
   (claim_C7_append_only_ordered
      { tools :=
          { registry :=
              { tools :=
                  [("a", { name := "a", execute := fun _ => Except.ok "r" }),
                   ("b", { name := "b", execute := fun _ => Except.ok "r" })] },
            approve := fun _ => true },
        pm := { permissions := [] },
        streams := fun _ => [],
        signal := fun _ _ => false,
        draftId := fun r => "draft-" ++ toString r,
        toolMsgId := fun r k => "tool-" ++ toString r ++ "-" ++ toString k,
        now := 5 } 0 0 []
      { registry :=
          { tools :=
              [("a", { name := "a", execute := fun _ => Except.ok "r" }),
               ("b", { name := "b", execute := fun _ => Except.ok "r" })] },
        approve := fun _ => true }
      { permissions := [("a", ToolPermission.allow),
          ("b", ToolPermission.deny)] }
      (fun k => "m-" ++ toString k) 5
      { function := { name := "a", arguments := [] } }
      { function := { name := "b", arguments := [] } }).2⟩


theorem stopsStream_cancelChunk : stopsStream cancelChunk = true := rfl

theorem generateChunks_cancel_terminal (signal : Nat → Bool) :
    ∀ (chunks : List GenerationChunk) (i : Nat),
      cancelChunk ∈ generateChunks signal i chunks →
      ∃ p, generateChunks signal i chunks = p ++ [cancelChunk] ∧
        ∀ c ∈ p, c.type ≠ ChunkType.error := by
  intro chunks
  induction chunks with
  | nil => intro i h; cases h
  | cons chunk rest ih =>
      intro i hmem
      simp only [generateChunks] at hmem ⊢
      by_cases hs : signal i = true
      · simp only [hs, if_true]
        exact ⟨[], rfl, by intro c hc; cases hc⟩
      · simp only [hs, if_false] at hmem ⊢
        by_cases hstop : stopsStream chunk = true
        · simp only [hstop, if_true] at hmem ⊢
          rcases List.mem_cons.mp hmem with he | he
          · exact ⟨[], by rw [← he]; simp, by intro c hc; cases hc⟩
          · cases he
        · simp only [hstop, if_false] at hmem ⊢
          rcases List.mem_cons.mp hmem with he | he
          · exfalso
            apply hstop
            rw [← he]
            exact stopsStream_cancelChunk
          · rcases ih (i + 1) he with ⟨p, hp, hperr⟩
            refine ⟨chunk :: p, by rw [hp]; simp, ?_⟩
            intro c hc
            rcases List.mem_cons.mp hc with rfl | hc2
            · intro hctype
              apply hstop
              unfold stopsStream
              rw [hctype]
              simp
            · exact hperr c hc2

theorem consumeChunks_trace_no_error :
    ∀ (chunks : List GenerationChunk) (assistant : DelverMessage),
      ∀ c ∈ (consumeChunks assistant chunks).2.1, c.type ≠ ChunkType.error := by
  intro chunks
  induction chunks with
  | nil => intro assistant c hc; cases hc
  | cons chunk rest ih =>
      intro assistant c hc
      rcases htype : chunk.type with _ | _ | _ | _ | _ <;>
        simp only [consumeChunks, htype] at hc
      · rcases List.mem_cons.mp hc with rfl | hc2
        · rw [htype]; exact fun h => ChunkType.noConfusion h
        · exact ih _ c hc2
      · rcases List.mem_cons.mp hc with rfl | hc2
        · rw [htype]; exact fun h => ChunkType.noConfusion h
        · exact ih _ c hc2
      · rcases List.mem_cons.mp hc with rfl | hc2
        · rw [htype]; exact fun h => ChunkType.noConfusion h
        · cases hc2
      · rcases List.mem_cons.mp hc with rfl | hc2
        · rw [htype]; exact fun h => ChunkType.noConfusion h
        · exact ih _ c hc2
      · cases hc

theorem runTurn_error_stops (env : TurnEnv) (fuel round : Nat)
    (msgs : List DelverMessage) (e : String)
    (h : (consumeChunks (mkDraft env round)
        (generateChunks (env.signal round) 0 (env.streams round))).2.2 =
      ConsumeOutcome.gotError e) :
    runTurn env (fuel + 1) round msgs =
      (msgs,
       (consumeChunks (mkDraft env round)
         (generateChunks (env.signal round) 0 (env.streams round))).2.1,
       TurnOutcome.errored e) := by
  simp only [runTurn]
  rw [h]

/-- C8: the cancellation signal is checked at each chunk boundary: once
observed the consumer yields exactly one terminal "Generation cancelled"
error chunk with no chunk after it (and on an already-aborted signal the
very next boundary yields only that chunk); the run loop never forwards an
error chunk to `onChunk`, so nothing reaches `onChunk` after the
cancellation error; and a round whose consumption ends in an error — the
cancellation error included — terminates the turn with no session append
and no further GENERATING round. -/
theorem claim_C8_cancellation :
    (∀ (signal : Nat → Bool) (i : Nat) (chunk : GenerationChunk)
        (rest : List GenerationChunk), signal i = true →
      generateChunks signal i (chunk :: rest) = [cancelChunk]) ∧
    (∀ (signal : Nat → Bool) (chunks : List GenerationChunk) (i : Nat),
      cancelChunk ∈ generateChunks signal i chunks →
      ∃ p, generateChunks signal i chunks = p ++ [cancelChunk] ∧
        ∀ c ∈ p, c.type ≠ ChunkType.error) ∧
    (∀ (chunks : List GenerationChunk) (assistant : DelverMessage),
      ∀ c ∈ (consumeChunks assistant chunks).2.1,
        c.type ≠ ChunkType.error) ∧
    (∀ (env : TurnEnv) (fuel round : Nat) (msgs : List DelverMessage)
        (e : String),
      (consumeChunks (mkDraft env round)
          (generateChunks (env.signal round) 0 (env.streams round))).2.2 =
        ConsumeOutcome.gotError e →
      runTurn env (fuel + 1) round msgs =
        (msgs,
         (consumeChunks (mkDraft env round)
           (generateChunks (env.signal round) 0 (env.streams round))).2.1,
         TurnOutcome.errored e)) := by
  refine ⟨?_, generateChunks_cancel_terminal, consumeChunks_trace_no_error,
    runTurn_error_stops⟩
  intro signal i chunk rest hs
  simp [generateChunks, hs]

/-- Witness for C8: a signal that flips after the first chunk; the
produced stream is the first content chunk then the cancellation chunk
and nothing more, and the turn ends errored with the session untouched
and only the content chunk forwarded to `onChunk`. -/
theorem claim_C8_cancellation_witness :
    generateChunks (fun i => decide (1 ≤ i)) 1
      [{ type := ChunkType.content, content := some "b" }] =
      [cancelChunk] ∧
    (∃ p, generateChunks (fun i => decide (1 ≤ i)) 0
        [{ type := ChunkType.content, content := some "a" },
         { type := ChunkType.content, content := some "b" },
         { type := ChunkType.content, content := some "c" }] =
      p ++ [cancelChunk] ∧ ∀ c ∈ p, c.type ≠ ChunkType.error) ∧
    runTurn
      { tools :=
          { registry := { tools := [] },
            approve := fun _ => true },
        pm := { permissions := [] },
        streams := fun _ =>
          [{ type := ChunkType.content, content := some "a" },
           { type := ChunkType.content, content := some "b" },
           { type := ChunkType.content, content := some "c" }],
        signal := fun _ i => decide (1 ≤ i),
        draftId := fun r => "draft-" ++ toString r,
        toolMsgId := fun r k => "tool-" ++ toString r ++ "-" ++ toString k,
        now := 3 } 6 0
      [{ id := "u0", role := Role.user, content := "q", timestamp := 0 }] =
      ([{ id := "u0", role := Role.user, content := "q", timestamp := 0 }],
       [{ type := ChunkType.content, content := some "a" }],
       TurnOutcome.errored "Generation cancelled") := by
  refine ⟨?_, ?_, ?_⟩
  · exact claim_C8_cancellation.1 (fun i => decide (1 ≤ i)) 1
      { type := ChunkType.content, content := some "b" } [] (by decide)
  · refine claim_C8_cancellation.2.1 (fun i => decide (1 ≤ i))
      [{ type := ChunkType.content, content := some "a" },
       { type := ChunkType.content, content := some "b" },
       { type := ChunkType.content, content := some "c" }] 0 ?_
    show cancelChunk ∈
      [{ type := ChunkType.content, content := some "a" }, cancelChunk]
    exact List.mem_cons_of_mem _ (List.mem_cons_self _ _)
  · exact (claim_C8_cancellation.2.2.2
      { tools :=
          { registry := { tools := [] },
            approve := fun _ => true },
        pm := { permissions := [] },
        streams := fun _ =>
          [{ type := ChunkType.content, content := some "a" },
           { type := ChunkType.content, content := some "b" },
           { type := ChunkType.content, content := some "c" }],
        signal := fun _ i => decide (1 ≤ i),
        draftId := fun r => "draft-" ++ toString r,
        toolMsgId := fun r k => "tool-" ++ toString r ++ "-" ++ toString k,
        now := 3 } 5 0
      [{ id := "u0", role := Role.user, content := "q", timestamp := 0 }]
      "Generation cancelled" rfl).trans (by rfl)

end Delver
